import Mathlib

/-!
Verification development for the `UST_CPP_Training` repository.

Each C++ entity the claims mention is shallowly embedded here:
pure computations become Lean functions, mutation of an object becomes
an explicit state-to-state function, `int` becomes `Int`, `float`
arithmetic on exact derived quantities is modelled over `ℚ`,
and the fixed-size C++ array `int memory[65535]` is modelled as a total
map `Int → Int` together with an explicit record of which indices an
accessor touches (for the bounds claim).
-/

namespace CPUSim16BitModel

/-- C++ logical AND `a && b` over `int` operands: yields `1` when both
operands are nonzero, `0` otherwise (the result is an `int` after the
implicit bool-to-int conversion, as in `memory[addr] = value && 0xFF`). -/
def cppLogicalAnd (a b : Int) : Int :=
  if a ≠ 0 ∧ b ≠ 0 then 1 else 0

/-- Pointwise update of the memory map: `updMem m i v` is the map `m`
with index `i` now holding `v` (models `memory[i] = v;`). -/
def updMem (m : Int → Int) (i v : Int) : Int → Int :=
  fun j => if j = i then v else m j

/-- State of a `CPUSim16Bit` object: four `int` registers, the memory
array (as a total map), the register-name map (its key set: the
constructor installs exactly AX, BX, CX, DX), and the loaded program. -/
structure CPUSim16Bit where
  AX : Int
  BX : Int
  CX : Int
  DX : Int
  memory : Int → Int
  regmap : List String
  program : List String

/-- A freshly constructed `CPUSim16Bit`: registers zero, memory
zero-initialised (`= {0,}`), the constructor fills `regmap` with the
four register names, `program` empty. -/
def CPUSim16Bit.init : CPUSim16Bit :=
  { AX := 0, BX := 0, CX := 0, DX := 0
    memory := fun _ => 0
    regmap := ["AX", "BX", "CX", "DX"]
    program := [] }

/-- Method `CPUSim16Bit::storeWord(int addr, int value)`:
```cpp
if(addr>=0 && addr<=65535) {
    memory[addr] = value && 0xFF;
    memory[addr+1] = (value>>8)&0xFF;
}
```
run on state `c`; returns the post state. -/
def CPUSim16Bit.storeWord (c : CPUSim16Bit) (addr value : Int) : CPUSim16Bit :=
  if addr ≥ 0 ∧ addr ≤ 65535 then
    { c with
      memory :=
        updMem (updMem c.memory addr (cppLogicalAnd value 0xFF))
          (addr + 1) (Int.land (value >>> (8 : Int)) 0xFF) }
  else c

/-- Method `CPUSim16Bit::loadWord(int addr)`:
```cpp
if(addr>=0 && addr<=65535) { return ((memory[addr+1]<<8)| (memory[addr])); }
return 0;
```
-/
def CPUSim16Bit.loadWord (c : CPUSim16Bit) (addr : Int) : Int :=
  if addr ≥ 0 ∧ addr ≤ 65535 then
    Int.lor (c.memory (addr + 1) <<< (8 : Int)) (c.memory addr)
  else 0

/-- The indices of `memory` that a call `storeWord(addr, value)` writes:
inside the `if`, the two assignments index `memory[addr]` and
`memory[addr+1]`; outside it, nothing is touched. -/
def storeWordIndices (addr : Int) : List Int :=
  if addr ≥ 0 ∧ addr ≤ 65535 then [addr, addr + 1] else []

/-- The indices of `memory` that a call `loadWord(addr)` reads:
inside the `if`, the return expression indexes `memory[addr+1]` and
`memory[addr]`; outside it, nothing is touched. -/
def loadWordIndices (addr : Int) : List Int :=
  if addr ≥ 0 ∧ addr ≤ 65535 then [addr, addr + 1] else []

/-- Valid indices of the declared array `int memory[65535]`:
`0 ≤ i ≤ 65534`. -/
def memInBounds (i : Int) : Prop :=
  0 ≤ i ∧ i ≤ 65534

instance (i : Int) : Decidable (memInBounds i) := by
  unfold memInBounds; infer_instance

/-- Method `CPUSim16Bit::loadProgram`: `program = prog;`. -/
def CPUSim16Bit.loadProgram (c : CPUSim16Bit) (prog : List String) : CPUSim16Bit :=
  { c with program := prog }

/-- Method `CPUSim16Bit::run()`: empty body (a comment only). -/
def CPUSim16Bit.run (c : CPUSim16Bit) : CPUSim16Bit := c

/-- Method `CPUSim16Bit::execute()`: empty body (comments only). -/
def CPUSim16Bit.execute (c : CPUSim16Bit) : CPUSim16Bit := c

/-- Method `CPUSim16Bit::isRegister`: `regmap.find(s) != regmap.end()`. -/
def CPUSim16Bit.isRegister (c : CPUSim16Bit) (s : String) : Bool :=
  c.regmap.contains s

/-- The loop `while (val < 0) val += 65535;` of `CPUSim16Bit::wrap16`. -/
def wrapLoop (val : Int) : Int :=
  if val < 0 then wrapLoop (val + 65535) else val
termination_by (-val).toNat
decreasing_by omega

/-- Method `CPUSim16Bit::wrap16(int val)`:
```cpp
while (val <0) val += 65535;
return val % 65536;
```
C++ `%` is truncating remainder, `Int.tmod`. -/
def wrap16 (val : Int) : Int :=
  Int.tmod (wrapLoop val) 65536

end CPUSim16BitModel

namespace MultilvlModel

/-- State of a `StdResult` object (`multilvl.cpp`): via multi-level
inheritance it carries the `Student` fields `rollno`, `name`, the
`StdMarks` fields `s1..s6` and `per`, and adds no fields of its own.
The C++ `float per` is modelled over `ℚ` (the derived quantity is
exact rational arithmetic in the claims considered). -/
structure StdResult where
  rollno : Int
  name : String
  s1 : Int
  s2 : Int
  s3 : Int
  s4 : Int
  s5 : Int
  s6 : Int
  per : ℚ

/-- Method `StdResult::calc()`: `per = (s1+s2+s3+s4+s5+s6)/6.0;` (the
subsequent `cout` prints `per` and changes no field). -/
def StdResult.calc (r : StdResult) : StdResult :=
  { r with per := ((r.s1 + r.s2 + r.s3 + r.s4 + r.s5 + r.s6 : Int) : ℚ) / 6 }

end MultilvlModel

namespace RentalModel

/-- A `Car` (`solutions/1.cpp`, Problem 3): the `Vehicle` base fields
`vehicleId`, `type`, `ratePerKm` (`int`), no extra data members. -/
structure Car where
  vehicleId : String
  type : String
  ratePerKm : Int

/-- Two-argument `Car::calculateFare(int distance, int days)`:
```cpp
float fare = distance * ratePerKm;
if (days > 2) fare *= 0.9;
```
The `float` value printed is modelled over `ℚ` (`0.9 = 9/10`); the
function returns the fare it prints. -/
def Car.calculateFare2 (car : Car) (distance days : Int) : ℚ :=
  let fare : ℚ := ((distance * car.ratePerKm : Int) : ℚ)
  if days > 2 then fare * (9 / 10) else fare

end RentalModel

namespace OperatorOverloadingModel

/-- The value-holder class `Test` of `OperatorOverloading.cpp`:
a single public `int value`. -/
structure Test where
  value : Int

/-- Method `Test::operator+(Test &obj)`:
```cpp
value = value + obj.value;
return value;
```
It mutates `*this` and returns `Test(value)` via the converting
constructor. Modelled as a state transformer on the pair of operands:
`opPlus a b = (a after the call, b after the call, returned object)`. -/
def Test.opPlus (a b : Test) : Test × Test × Test :=
  let v := a.value + b.value
  ({ a with value := v }, b, Test.mk v)

/-- Method `Test::operator+=(Test &obj)`:
```cpp
this->value = this->value + obj.value;
return *this;
```
Modelled as a state transformer on the pair of operands:
`opPlusAssign a b = (a after the call, b after the call, returned copy of *this)`. -/
def Test.opPlusAssign (a b : Test) : Test × Test × Test :=
  let a' := { a with value := a.value + b.value }
  (a', b, a')

end OperatorOverloadingModel

namespace CPUSim16BitModel

/-- C1: for every in-range address (`0 ≤ addr ≤ 65535`) and every value,
`storeWord` sets `memory[addr]` to the C++ logical AND `value && 0xFF` —
`1` when `value` is nonzero and `0` when it is zero — and sets
`memory[addr+1]` to `(value >> 8) & 0xFF`. -/
theorem storeWord_writes_logicalAnd (c : CPUSim16Bit) (addr value : Int)
    (h0 : 0 ≤ addr) (h1 : addr ≤ 65535) :
    (c.storeWord addr value).memory addr = (if value ≠ 0 then 1 else 0) ∧
    (c.storeWord addr value).memory (addr + 1) =
      Int.land (value >>> (8 : Int)) 0xFF := by
  have hne : addr ≠ addr + 1 := by omega
  unfold CPUSim16Bit.storeWord
  rw [if_pos ⟨h0, h1⟩]
  constructor
  · show updMem (updMem c.memory addr (cppLogicalAnd value 0xFF))
        (addr + 1) (Int.land (value >>> (8 : Int)) 0xFF) addr
        = (if value ≠ 0 then 1 else 0)
    simp only [updMem, cppLogicalAnd, if_neg hne, if_pos rfl]
    have h255 : (0xFF : Int) ≠ 0 := by decide
    simp [h255]
  · show updMem (updMem c.memory addr (cppLogicalAnd value 0xFF))
        (addr + 1) (Int.land (value >>> (8 : Int)) 0xFF) (addr + 1)
        = Int.land (value >>> (8 : Int)) 0xFF
    simp [updMem]

/-- Witness for C1 at `addr = 3`, `value = 0x1234` on a fresh CPU state. -/
theorem storeWord_writes_logicalAnd_witness :
    (CPUSim16Bit.init.storeWord 3 0x1234).memory 3 =
      (if (0x1234 : Int) ≠ 0 then 1 else 0) ∧
    (CPUSim16Bit.init.storeWord 3 0x1234).memory 4 =
      Int.land ((0x1234 : Int) >>> (8 : Int)) 0xFF :=
  storeWord_writes_logicalAnd CPUSim16Bit.init 3 0x1234 (by decide) (by decide)

/-- Counterexample to C2 as stated: `addr = 65534` passes the accessors'
range check, yet the index `addr + 1 = 65535` used by both `storeWord`
and `loadWord` is outside the bounds `[0, 65534]` of the 65535-element
array. -/
theorem accessIndices_claim_counterexample :
    ((65534 : Int) ≥ 0 ∧ (65534 : Int) ≤ 65535) ∧
    (65535 : Int) ∈ storeWordIndices 65534 ∧
    (65535 : Int) ∈ loadWordIndices 65534 ∧
    ¬ memInBounds 65535 := by
  refine ⟨by decide, ?_, ?_, by decide⟩
  · unfold storeWordIndices
    rw [if_pos (by decide)]
    decide
  · unfold loadWordIndices
    rw [if_pos (by decide)]
    decide

/-- C2 amended: for an address that passes the range check, every index
the accessors use (`addr` and `addr + 1`, for both `storeWord` and
`loadWord`) lies within the array bounds `[0, 65534]` if and only if
`addr ≤ 65533`; at `addr = 65534` and `addr = 65535` the check passes
but an out-of-bounds index is used. -/
theorem accessIndices_inBounds_iff (addr : Int)
    (h : addr ≥ 0 ∧ addr ≤ 65535) :
    ((∀ i ∈ storeWordIndices addr, memInBounds i) ∧
     (∀ i ∈ loadWordIndices addr, memInBounds i)) ↔ addr ≤ 65533 := by
  unfold storeWordIndices loadWordIndices
  rw [if_pos h]
  simp only [List.mem_cons, List.mem_singleton, List.not_mem_nil, memInBounds]
  constructor
  · intro hall
    have := hall.1 (addr + 1) (Or.inr (Or.inl rfl))
    omega
  · intro hle
    constructor <;> (intro i hi; rcases hi with rfl | hi)
    · omega
    · rcases hi with rfl | hi
      · omega
      · cases hi
    · omega
    · rcases hi with rfl | hi
      · omega
      · cases hi

/-- Witness for the amended C2 at `addr = 100`. -/
theorem accessIndices_inBounds_iff_witness :
    ((∀ i ∈ storeWordIndices 100, memInBounds i) ∧
     (∀ i ∈ loadWordIndices 100, memInBounds i)) ↔ (100 : Int) ≤ 65533 :=
  accessIndices_inBounds_iff 100 (by decide)

/-- C3: for every in-range address, `loadWord` returns
`(memory[addr+1] << 8) | memory[addr]` — a two-byte little-endian word
with low byte at `addr` and high byte at `addr + 1`. -/
theorem loadWord_littleEndian (c : CPUSim16Bit) (addr : Int)
    (h0 : 0 ≤ addr) (h1 : addr ≤ 65535) :
    c.loadWord addr =
      Int.lor (c.memory (addr + 1) <<< (8 : Int)) (c.memory addr) := by
  unfold CPUSim16Bit.loadWord
  rw [if_pos ⟨h0, h1⟩]

/-- Witness for C3 at `addr = 7` on a fresh CPU state. -/
theorem loadWord_littleEndian_witness :
    CPUSim16Bit.init.loadWord 7 =
      Int.lor (CPUSim16Bit.init.memory 8 <<< (8 : Int))
        (CPUSim16Bit.init.memory 7) :=
  loadWord_littleEndian CPUSim16Bit.init 7 (by decide) (by decide)

/-- C4: `run()` and `execute()` change nothing: registers AX, BX, CX,
DX, the memory array, the register map and the loaded program are all
exactly as before the call. -/
theorem run_execute_change_nothing (c : CPUSim16Bit) :
    (c.run.AX = c.AX ∧ c.run.BX = c.BX ∧ c.run.CX = c.CX ∧
     c.run.DX = c.DX ∧ c.run.memory = c.memory ∧
     c.run.regmap = c.regmap ∧ c.run.program = c.program) ∧
    (c.execute.AX = c.AX ∧ c.execute.BX = c.BX ∧ c.execute.CX = c.CX ∧
     c.execute.DX = c.DX ∧ c.execute.memory = c.memory ∧
     c.execute.regmap = c.regmap ∧ c.execute.program = c.program) :=
  ⟨⟨rfl, rfl, rfl, rfl, rfl, rfl, rfl⟩, ⟨rfl, rfl, rfl, rfl, rfl, rfl, rfl⟩⟩

/-- C9: for every out-of-range address (`addr < 0` or `addr > 65535`),
`loadWord` returns `0` and `storeWord` leaves the entire memory array
unchanged, for every value. -/
theorem outOfRange_loadZero_storeNoop (c : CPUSim16Bit) (addr value : Int)
    (h : addr < 0 ∨ addr > 65535) :
    c.loadWord addr = 0 ∧ (c.storeWord addr value).memory = c.memory := by
  have hno : ¬ (addr ≥ 0 ∧ addr ≤ 65535) := by omega
  unfold CPUSim16Bit.loadWord CPUSim16Bit.storeWord
  rw [if_neg hno, if_neg hno]
  exact ⟨rfl, rfl⟩

/-- Witness for C9 at `addr = -1`, `value = 99` on a fresh CPU state. -/
theorem outOfRange_loadZero_storeNoop_witness :
    CPUSim16Bit.init.loadWord (-1) = 0 ∧
    (CPUSim16Bit.init.storeWord (-1) 99).memory = CPUSim16Bit.init.memory :=
  outOfRange_loadZero_storeNoop CPUSim16Bit.init (-1) 99 (by decide)

/-- The `while (val < 0) val += 65535` loop always ends at a
non-negative value. -/
theorem wrapLoop_nonneg (val : Int) : 0 ≤ wrapLoop val := by
  unfold wrapLoop
  split
  · exact wrapLoop_nonneg (val + 65535)
  · omega
termination_by (-val).toNat
decreasing_by omega

/-- C10: `wrap16` terminates for every `int` input (it is a total
function of the embedded loop) and returns a value in `[0, 65535]`. -/
theorem wrap16_range (val : Int) :
    0 ≤ wrap16 val ∧ wrap16 val ≤ 65535 := by
  unfold wrap16
  have hnn : 0 ≤ wrapLoop val := wrapLoop_nonneg val
  have hlt : Int.tmod (wrapLoop val) 65536 < 65536 :=
    Int.tmod_lt_of_pos (wrapLoop val) (by decide)
  have hge : 0 ≤ Int.tmod (wrapLoop val) 65536 :=
    Int.tmod_nonneg 65536 hnn
  omega

end CPUSim16BitModel

namespace MultilvlModel

/-- C5: `calc()` sets `per` to `(s1+s2+s3+s4+s5+s6)/6.0`, the arithmetic
average of the six marks, and changes no other field. -/
theorem calc_sets_per_to_average (r : StdResult) :
    (r.calc).per = ((r.s1 + r.s2 + r.s3 + r.s4 + r.s5 + r.s6 : Int) : ℚ) / 6 ∧
    (r.calc).rollno = r.rollno ∧ (r.calc).name = r.name ∧
    (r.calc).s1 = r.s1 ∧ (r.calc).s2 = r.s2 ∧ (r.calc).s3 = r.s3 ∧
    (r.calc).s4 = r.s4 ∧ (r.calc).s5 = r.s5 ∧ (r.calc).s6 = r.s6 :=
  ⟨rfl, rfl, rfl, rfl, rfl, rfl, rfl, rfl, rfl⟩

end MultilvlModel

namespace RentalModel

/-- C6: the two-argument `calculateFare` computes `distance * ratePerKm`,
multiplied by `0.9` (a 10% reduction) exactly when `days > 2`, and left
undiscounted when `days ≤ 2`. -/
theorem calculateFare2_discount (car : Car) (distance days : Int) :
    (2 < days →
      car.calculateFare2 distance days =
        ((distance * car.ratePerKm : Int) : ℚ) * (9 / 10)) ∧
    (days ≤ 2 →
      car.calculateFare2 distance days =
        ((distance * car.ratePerKm : Int) : ℚ)) := by
  unfold Car.calculateFare2
  constructor <;> intro h
  · rw [if_pos (by omega : days > 2)]
  · rw [if_neg (by omega : ¬ days > 2)]

/-- A concrete rental car used to witness C6. -/
def sampleCar : Car := { vehicleId := "V001", type := "Car", ratePerKm := 12 }

/-- Witness for C6: a 100 km, 3-day rental gets the 10% discount. -/
theorem calculateFare2_discount_witness :
    sampleCar.calculateFare2 100 3 =
      ((100 * sampleCar.ratePerKm : Int) : ℚ) * (9 / 10) :=
  (calculateFare2_discount sampleCar 100 3).1 (by decide)

end RentalModel

namespace OperatorOverloadingModel

/-- C7: `a += b` sets `a.value` to the previous `a.value + b.value`,
returns an object holding that sum, and leaves `b.value` unchanged. -/
theorem opPlusAssign_spec (a b : Test) :
    (a.opPlusAssign b).1.value = a.value + b.value ∧
    (a.opPlusAssign b).2.2.value = a.value + b.value ∧
    (a.opPlusAssign b).2.1.value = b.value :=
  ⟨rfl, rfl, rfl⟩

/-- C8: `a + b` mutates its left operand: afterwards `a.value` equals
the previous `a.value + b.value`, the returned object holds that same
sum, and `b.value` is unchanged. -/
theorem opPlus_mutates_left (a b : Test) :
    (a.opPlus b).1.value = a.value + b.value ∧
    (a.opPlus b).2.2.value = a.value + b.value ∧
    (a.opPlus b).2.1.value = b.value :=
  ⟨rfl, rfl, rfl⟩

end OperatorOverloadingModel
